import Mathlib

/-!
The program websvc.go: a Windows service hosting an HTTP server

A shallow embedding of `src/websvc.go`.  The program is sequential except for
the `select` in `Execute`; the order in which that `select` receives from the
timer channel and from the request channel is given as a list of events.
Everything the program does to the outside (status reports, sleeps, event-log
entries, service-manager calls, text on stderr) is appended to a list of
effects, oldest first.  Errors are Go `error` values, kept as their text:
`none` is `nil`.
-/

namespace WebSvc

/-! ## Constants of the Go libraries the program uses -/

namespace time

/-- Go `time.Millisecond`, a `time.Duration` counted in nanoseconds. -/
def Millisecond : Nat := 1000000

/-- Go `time.Second`. -/
def Second : Nat := 1000000000

end time

namespace svc

/-- Go `svc.Status`: `State` is a `svc.State` (uint32), `Accepts` a bit set of
`svc.Accepted`.  A field left out of a Go struct literal is zero. -/
structure Status where
  State : Nat := 0
  Accepts : Nat := 0
  CheckPoint : Nat := 0
  WaitHint : Nat := 0
deriving DecidableEq, Repr

/-- Go `svc.ChangeRequest`: the command (a `svc.Cmd`, uint32) and the status
the sender holds to be current. -/
structure ChangeRequest where
  Cmd : Nat
  CurrentStatus : Status := {}
deriving DecidableEq, Repr

/-- The value of `svc.Stopped` (SERVICE_STOPPED). -/
def Stopped : Nat := 1
/-- The value of `svc.StartPending`. -/
def StartPending : Nat := 2
/-- The value of `svc.StopPending`. -/
def StopPending : Nat := 3
/-- The value of `svc.Running`. -/
def Running : Nat := 4
/-- The value of `svc.ContinuePending`. -/
def ContinuePending : Nat := 5
/-- The value of `svc.PausePending`. -/
def PausePending : Nat := 6
/-- The value of `svc.Paused`. -/
def Paused : Nat := 7

/-- The value of `svc.Stop` (SERVICE_CONTROL_STOP). -/
def Stop : Nat := 1
/-- The value of `svc.Pause`. -/
def Pause : Nat := 2
/-- The value of `svc.Continue`. -/
def Continue : Nat := 3
/-- The value of `svc.Interrogate`. -/
def Interrogate : Nat := 4
/-- The value of `svc.Shutdown`. -/
def Shutdown : Nat := 5

/-- The value of `svc.AcceptStop` (SERVICE_ACCEPT_STOP). -/
def AcceptStop : Nat := 1
/-- The value of `svc.AcceptPauseAndContinue`. -/
def AcceptPauseAndContinue : Nat := 2
/-- The value of `svc.AcceptShutdown`. -/
def AcceptShutdown : Nat := 4

end svc

namespace eventlog

/-- The value of `eventlog.Error` (EVENTLOG_ERROR_TYPE). -/
def Error : Nat := 1
/-- The value of `eventlog.Warning`. -/
def Warning : Nat := 2
/-- The value of `eventlog.Info`. -/
def Info : Nat := 4

end eventlog

/-! ## Effects -/

/-- One route of the gorilla/mux router `runApp` builds. -/
inductive Route
  | handleFunc (path method body : String)
  | fileServer (mount strip dir : String)
deriving DecidableEq, Repr

/-- The router `runApp` builds: `mux.NewRouter().StrictSlash(true)`, its
routes in registration order, and the `NotFoundHandler`. -/
structure Router where
  strictSlash : Bool
  routes : List Route
  notFoundStatus : Nat
  notFoundBody : String
deriving DecidableEq, Repr

/-- What the program does to the outside world. -/
inductive Effect
  /-- Go `changes <- s` in `Execute`. -/
  | report (s : svc.Status)
  /-- Go `time.Sleep(d)`, `d` in nanoseconds. -/
  | sleep (d : Nat)
  /-- Go `elog.Info(id, msg)`. -/
  | elogInfo (id : Nat) (msg : String)
  /-- Go `elog.Error(id, msg)`. -/
  | elogError (id : Nat) (msg : String)
  /-- Go `eventlog.Open(source)`. -/
  | elogOpen (source : String)
  /-- Go `elog.Close()`. -/
  | elogClose
  /-- Go `go func() { http.ListenAndServe(addr, r) }()`. -/
  | serve (addr : String) (r : Router)
  /-- Go `fmt.Fprintf(os.Stderr, ...)` with the formatted text. -/
  | stderr (text : String)
  /-- Go `mgr.Connect()`. -/
  | connect
  /-- Go `m.Disconnect()`. -/
  | disconnect
  /-- Go `m.OpenService(name)`. -/
  | openService (name : String)
  /-- Go `s.Close()`. -/
  | closeService
  /-- Go `m.CreateService(name, exepath, mgr.Config{DisplayName: desc}, args...)`. -/
  | createService (name exepath desc : String) (args : List String)
  /-- Go `s.Delete()`. -/
  | deleteService
  /-- Go `s.Start(args...)`. -/
  | startService (args : List String)
  /-- Go `s.Control(c)`. -/
  | control (c : Nat)
  /-- Go `s.Query()`. -/
  | query
  /-- Go `eventlog.InstallAsEventCreate(name, mask)`. -/
  | installAsEventCreate (name : String) (mask : Nat)
  /-- Go `eventlog.Remove(name)`. -/
  | eventlogRemove (name : String)
deriving DecidableEq, Repr

/-! ## Process-scope state -/

/-- The value of `var eventid uint32 = 10001`. -/
def eventid : Nat := 10001

/-- The process: the global `isFirstRun` and everything done so far. -/
structure Proc where
  isFirstRun : Bool
  out : List Effect
deriving DecidableEq, Repr

/-- The process at start: `var isFirstRun bool = true`, nothing done yet. -/
def Proc.init : Proc := { isFirstRun := true, out := [] }

/-- Append effects to what the process has done. -/
def emit (p : Proc) (es : List Effect) : Proc :=
  { p with out := p.out ++ es }

/-! ## runApp -/

/-- The router of `runApp`. -/
def gmux : Router :=
  { strictSlash := true
    routes := [Route.handleFunc "/" "GET" "Hello World",
               Route.fileServer "/static/" "/static/" "C:/wwwRoot/static/"]
    notFoundStatus := 404
    notFoundBody := "Not Found" }

/-- What the first `runApp` does: the start notice and the listener. -/
def setup : List Effect :=
  [Effect.elogInfo eventid "Start HTTP Server", Effect.serve ":8080" gmux]

/-- Go `runApp`. -/
def runApp (p : Proc) : Proc :=
  if p.isFirstRun then
    emit { p with isFirstRun := false } setup
  else
    p

/-- The process after `n` consecutive calls of `runApp`. -/
def runAppTimes : Nat → Proc → Proc
  | 0, p => p
  | n + 1, p => runAppTimes n (runApp p)

/-! ## Execute -/

/-- One thing the `select` of `Execute` receives. -/
inductive Event
  /-- Go `case <-tick`: the active timer fired. -/
  | tick
  /-- Go `case c := <-r`. -/
  | request (c : svc.ChangeRequest)
deriving DecidableEq, Repr

/-- The constant `cmdsAccepted` of `Execute`. -/
def cmdsAccepted : Nat :=
  svc.AcceptStop ||| svc.AcceptShutdown ||| svc.AcceptPauseAndContinue

/-- The channel `time.Tick(500 * time.Millisecond)`, named by its period. -/
def fasttick : Nat := 500 * time.Millisecond

/-- The channel `time.Tick(2 * time.Second)`, named by its period. -/
def slowtick : Nat := 2 * time.Second

/-- Go `%d` of a `svc.Status`. -/
def fmtStatus (s : svc.Status) : String :=
  "\x7b" ++ toString s.State ++ " " ++ toString s.Accepts ++ " " ++
    toString s.CheckPoint ++ " " ++ toString s.WaitHint ++ "\x7d"

/-- Go `%d` of a `svc.ChangeRequest`. -/
def fmtChangeRequest (c : svc.ChangeRequest) : String :=
  "\x7b" ++ toString c.Cmd ++ " " ++ fmtStatus c.CurrentStatus ++ "\x7d"

/-- The local state of the loop of `Execute`: the process, the channel the
variable `tick` holds, and (a counter the source does not keep) how many
times the `case <-tick` branch has called `runApp`. -/
structure Loop where
  proc : Proc
  tick : Nat
  calls : Nat
deriving DecidableEq, Repr

/-- The `for { select { ... } }` of `Execute`, fed the events its `select`
receives.  The Boolean says how the events left the loop: `true` after
`break loop`, `false` when the events ran out and the `select` blocks. -/
def loop (l : Loop) : List Event → Loop × Bool
  | [] => (l, false)
  | Event.tick :: es =>
    loop { l with proc := runApp l.proc, calls := l.calls + 1 } es
  | Event.request c :: es =>
    if c.Cmd = svc.Interrogate then
      let p := emit l.proc [Effect.report c.CurrentStatus,
        Effect.sleep (100 * time.Millisecond), Effect.report c.CurrentStatus]
      loop { l with proc := p } es
    else if c.Cmd = svc.Stop ∨ c.Cmd = svc.Shutdown then
      let p := emit l.proc [Effect.elogInfo eventid "Shutdown HTTP Server"]
      ({ l with proc := p }, true)
    else if c.Cmd = svc.Pause then
      let p := emit l.proc [Effect.report { State := svc.Paused, Accepts := cmdsAccepted }]
      loop { l with proc := p, tick := slowtick } es
    else if c.Cmd = svc.Continue then
      let p := emit l.proc [Effect.report { State := svc.Running, Accepts := cmdsAccepted }]
      loop { l with proc := p, tick := fasttick } es
    else
      let p := emit l.proc
        [Effect.elogError eventid ("Unexpected control request #" ++ fmtChangeRequest c)]
      loop { l with proc := p } es

/-- The loop state on entry to the loop of `Execute`: both reports sent, the
fast timer selected. -/
def enter (p : Proc) : Loop :=
  { proc := emit (emit p [Effect.report { State := svc.StartPending }])
      [Effect.report { State := svc.Running, Accepts := cmdsAccepted }]
    tick := fasttick
    calls := 0 }

/-- What a run of `Execute` comes to. -/
structure ExecResult where
  proc : Proc
  tick : Nat
  calls : Nat
  /-- The results `(ssec, errno)` once `Execute` has returned; `none` while
  it is blocked in the `select`. -/
  returned : Option (Bool × Nat)
deriving DecidableEq, Repr

/-- Go `(*winservice).Execute`, fed the events its `select` receives. -/
def Execute (p : Proc) (events : List Event) : ExecResult :=
  match loop (enter p) events with
  | (l, true) =>
    { proc := emit l.proc [Effect.report { State := svc.StopPending }]
      tick := l.tick, calls := l.calls, returned := some (false, 0) }
  | (l, false) =>
    { proc := l.proc, tick := l.tick, calls := l.calls, returned := none }

/-! ## The service manager and the rest of the environment -/

/-- What the service manager and the event log hold: the names of the
registered services and of the registered event-log sources. -/
structure Sys where
  services : List String
  sources : List String
deriving DecidableEq, Repr

/-- What the environment answers to the program: the file system under
`exePath`, the failures of the service-manager and event-log calls, the
statuses the service reports to the administrative controller, the clock, and
what the service supervisor does with the process. -/
structure Env where
  /-- Go `filepath.Abs`. -/
  abs : String → Except String String
  /-- Go `os.Stat` followed by `Mode().IsDir()`. -/
  stat : String → Except String Bool
  /-- Go `filepath.Ext`. -/
  ext : String → String
  /-- The error of `mgr.Connect()`, when it fails. -/
  connectErr : Option String
  /-- An error of `m.OpenService` other than the service not existing. -/
  openErr : Option String
  /-- An error of `m.CreateService` other than the service existing. -/
  createErr : Option String
  /-- An error of `eventlog.InstallAsEventCreate` other than the source
  existing. -/
  installErr : Option String
  /-- The error of `s.Delete()`, when it fails. -/
  deleteErr : Option String
  /-- An error of `eventlog.Remove` other than the source not existing. -/
  removeErr : Option String
  /-- The error of `s.Start(...)`, when it fails. -/
  startErr : Option String
  /-- The answer of `s.Control(c)`. -/
  controlResp : Except String svc.Status
  /-- The answer of the `k`-th `s.Query()` of `controlService`, from 0. -/
  queryResp : Nat → Except String svc.Status
  /-- The clock when `controlService` computes its deadline. -/
  now : Nat
  /-- The time that passes, beyond the sleeps, before the `k`-th reading of
  the clock in the loop of `controlService`, from 0. -/
  lag : Nat → Nat
  /-- The answer of `svc.IsAnInteractiveSession()`: the flag. -/
  isIntSess : Bool
  /-- The answer of `svc.IsAnInteractiveSession()`: the error, if any. -/
  sessErr : Option String
  /-- What `svc.Run` does: it fails, or it calls `Execute` and these are the
  events the `select` of `Execute` receives. -/
  svcRun : Except String (List Event)

/-- Modelled from the spec: the service manager protocol of section 6
(`golang.org/x/sys/windows/svc/mgr` is not under src/).  `OpenService(name)`
succeeds when the service is registered and nothing else fails. -/
def Sys.openService (env : Env) (sys : Sys) (name : String) : Option String :=
  if name ∈ sys.services then env.openErr
  else some "The specified service does not exist as an installed service."

/-- Modelled from the spec: the service manager protocol of section 6.
`CreateService` registers a service that is not yet registered. -/
def Sys.createService (env : Env) (sys : Sys) (name : String) : Except String Sys :=
  if name ∈ sys.services then Except.error "The specified service already exists."
  else match env.createErr with
    | some e => Except.error e
    | none => Except.ok { sys with services := name :: sys.services }

/-- Modelled from the spec: the service manager protocol of section 6.
`Delete` on the handle of service `name` removes the registration, or fails
and leaves it. -/
def Sys.deleteService (env : Env) (sys : Sys) (name : String) : Sys × Option String :=
  match env.deleteErr with
  | some e => (sys, some e)
  | none => ({ sys with services := sys.services.erase name }, none)

/-- Modelled from the spec: the event-log source registration of section 4.4
(`golang.org/x/sys/windows/svc/eventlog` is not under src/). -/
def Sys.installAsEventCreate (env : Env) (sys : Sys) (name : String) : Except String Sys :=
  if name ∈ sys.sources then Except.error "registry key already exists"
  else match env.installErr with
    | some e => Except.error e
    | none => Except.ok { sys with sources := name :: sys.sources }

/-- Modelled from the spec: removal of an event-log source (section 4.4). -/
def Sys.eventlogRemove (env : Env) (sys : Sys) (name : String) : Sys × Option String :=
  if name ∈ sys.sources then
    match env.removeErr with
    | some e => (sys, some e)
    | none => ({ sys with sources := sys.sources.erase name }, none)
  else (sys, some "The system cannot find the file specified.")

/-! ## The administrative operations -/

/-- Go `exePath`, for `os.Args[0] = prog`.  The `err` the second `os.Stat`
returns is a new variable of the inner block, so the error returned at the
end is the one of the first `os.Stat` (or its "is directory"). -/
def exePath (env : Env) (prog : String) : Except String String :=
  match env.abs prog with
  | Except.error e => Except.error e
  | Except.ok p =>
    match env.stat p with
    | Except.ok false => Except.ok p
    | r =>
      let err := match r with
        | Except.ok _ => p ++ " is directory"
        | Except.error e => e
      if env.ext p = "" then
        match env.stat (p ++ ".exe") with
        | Except.ok false => Except.ok (p ++ ".exe")
        | _ => Except.error err
      else Except.error err

/-- What an administrative operation comes to: the registrations after it,
what it did, and the `error` it returns. -/
structure AdminResult where
  sys : Sys
  out : List Effect
  err : Option String
deriving DecidableEq, Repr

/-- Go `installService`, for `os.Args[0] = prog`. -/
def installService (env : Env) (sys : Sys) (prog name desc : String) : AdminResult :=
  let out0 := [Effect.elogInfo eventid ("Install " ++ name ++ " service.")]
  match exePath env prog with
  | Except.error e => { sys := sys, out := out0, err := some e }
  | Except.ok exepath =>
    let out1 := out0 ++ [Effect.connect]
    match env.connectErr with
    | some e => { sys := sys, out := out1, err := some e }
    | none =>
      let out2 := out1 ++ [Effect.openService name]
      match sys.openService env name with
      | none =>
        { sys := sys, out := out2 ++ [Effect.closeService, Effect.disconnect]
          err := some ("service " ++ name ++ " already exists") }
      | some _ =>
        let out3 := out2 ++ [Effect.createService name exepath desc ["is", "auto-started"]]
        match sys.createService env name with
        | Except.error e => { sys := sys, out := out3 ++ [Effect.disconnect], err := some e }
        | Except.ok sys1 =>
          let out4 := out3 ++ [Effect.installAsEventCreate name
            (eventlog.Error ||| eventlog.Warning ||| eventlog.Info)]
          match sys1.installAsEventCreate env name with
          | Except.error e =>
            { sys := (sys1.deleteService env name).1
              out := out4 ++ [Effect.deleteService, Effect.closeService, Effect.disconnect]
              err := some ("SetupelogSource() failed: " ++ e) }
          | Except.ok sys2 =>
            { sys := sys2, out := out4 ++ [Effect.closeService, Effect.disconnect]
              err := none }

/-- Go `removeService`. -/
def removeService (env : Env) (sys : Sys) (name : String) : AdminResult :=
  let out0 := [Effect.elogInfo eventid ("Remove " ++ name ++ " service."), Effect.connect]
  match env.connectErr with
  | some e => { sys := sys, out := out0, err := some e }
  | none =>
    let out1 := out0 ++ [Effect.openService name]
    match sys.openService env name with
    | some _ =>
      { sys := sys, out := out1 ++ [Effect.disconnect]
        err := some ("service " ++ name ++ " is not installed") }
    | none =>
      let out2 := out1 ++ [Effect.deleteService]
      match sys.deleteService env name with
      | (sys1, some e) =>
        { sys := sys1, out := out2 ++ [Effect.closeService, Effect.disconnect], err := some e }
      | (sys1, none) =>
        let out3 := out2 ++ [Effect.eventlogRemove name]
        match sys1.eventlogRemove env name with
        | (sys2, some e) =>
          { sys := sys2, out := out3 ++ [Effect.closeService, Effect.disconnect]
            err := some ("RemoveelogSource() failed: " ++ e) }
        | (sys2, none) =>
          { sys := sys2, out := out3 ++ [Effect.closeService, Effect.disconnect], err := none }

/-- Go `startService`. -/
def startService (env : Env) (sys : Sys) (name : String) : AdminResult :=
  let out0 := [Effect.connect]
  match env.connectErr with
  | some e => { sys := sys, out := out0, err := some e }
  | none =>
    let out1 := out0 ++ [Effect.openService name]
    match sys.openService env name with
    | some e =>
      { sys := sys, out := out1 ++ [Effect.disconnect]
        err := some ("could not access service: " ++ e) }
    | none =>
      let out2 := out1 ++ [Effect.startService ["is", "manual-started"],
        Effect.closeService, Effect.disconnect]
      match env.startErr with
      | some e => { sys := sys, out := out2, err := some ("could not start service: " ++ e) }
      | none => { sys := sys, out := out2, err := none }

/-- The `for status.State != to { ... }` of `controlService`: `k` queries
have been made, the clock stood at `now` when the loop head was reached with
`status`.  Each iteration reads the clock, sleeps 300 ms and queries.  The
first argument bounds the iterations of the model; `none` is a bound too
small. -/
def await (env : Env) (toState timeout : Nat) :
    Nat → Nat → Nat → svc.Status → Option (List Effect × Option String)
  | 0, _, _, _ => none
  | fuel + 1, k, now, status =>
    if status.State ≠ toState then
      if timeout < now + env.lag k then
        some ([], some ("timeout waiting for service to go to state=" ++ toString toState))
      else
        match env.queryResp k with
        | Except.error e =>
          some ([Effect.sleep (300 * time.Millisecond), Effect.query],
            some ("could not retrieve service status: " ++ e))
        | Except.ok st =>
          match await env toState timeout fuel (k + 1)
              (now + env.lag k + 300 * time.Millisecond) st with
          | none => none
          | some (out, r) =>
            some (Effect.sleep (300 * time.Millisecond) :: Effect.query :: out, r)
    else some ([], none)

/-- Go `controlService`.  The first argument bounds the iterations of the
polling loop; `none` is a bound too small. -/
def controlService (fuel : Nat) (env : Env) (sys : Sys) (name : String) (c toState : Nat) :
    Option AdminResult :=
  let out0 := [Effect.connect]
  match env.connectErr with
  | some e => some { sys := sys, out := out0, err := some e }
  | none =>
    let out1 := out0 ++ [Effect.openService name]
    match sys.openService env name with
    | some e =>
      some { sys := sys, out := out1 ++ [Effect.disconnect]
             err := some ("could not access service: " ++ e) }
    | none =>
      let out2 := out1 ++ [Effect.control c]
      match env.controlResp with
      | Except.error e =>
        some { sys := sys, out := out2 ++ [Effect.closeService, Effect.disconnect]
               err := some ("could not send control=" ++ toString c ++ ": " ++ e) }
      | Except.ok status =>
        match await env toState (env.now + 10 * time.Second) fuel 0 env.now status with
        | none => none
        | some (out, r) =>
          some { sys := sys, out := out2 ++ out ++ [Effect.closeService, Effect.disconnect]
                 err := r }

/-! ## main -/

/-- How the process ends. -/
inductive Exit
  /-- Go `main` returned. -/
  | returned
  /-- Go `os.Exit(code)`. -/
  | exited (code : Nat)
  /-- A run-time panic (an index out of range). -/
  | panicked
  /-- The process has not ended: `Execute` is blocked in its `select`, or
  the bound on the polling loop was too small. -/
  | running
deriving DecidableEq, Repr

/-- What a run of `main` comes to. -/
structure MainResult where
  sys : Sys
  proc : Proc
  exit : Exit
deriving DecidableEq, Repr

/-- Go `usage`, for `os.Args = args`: the text on stderr and `os.Exit(2)`;
with no `os.Args[0]` the index panics before anything is printed. -/
def usage (args : List String) (errmsg : String) : List Effect × Exit :=
  match args with
  | [] => ([], Exit.panicked)
  | prog :: _ =>
    ([Effect.stderr (errmsg ++ "\n\n" ++
        "Usage: " ++ prog ++ " <command>\n" ++
        "        where <command> is one of\n" ++
        "        install, remove, start or stop.\n")], Exit.exited 2)

/-- Go `runService`; the Boolean says whether it returned. -/
def runService (env : Env) (p : Proc) (name : String) : Proc × Bool :=
  let p1 := emit p [Effect.elogInfo eventid ("Starting " ++ name ++ " service.")]
  match env.svcRun with
  | Except.error e =>
    (emit p1 [Effect.elogError eventid (name ++ " service failed: " ++ e)], true)
  | Except.ok events =>
    let r := Execute p1 events
    match r.returned with
    | none => (r.proc, false)
    | some _ => (emit r.proc [Effect.elogInfo eventid (name ++ " service stopped.")], true)

/-- The constant `svcName` of `main`. -/
def svcName : String := "Go HTTP Server"

/-- The end of `main` after an administrative operation returned `r`: the
error is logged, `main` returns and the deferred `elog.Close()` runs. -/
def finish (p : Proc) (cmd : String) (r : AdminResult) : MainResult :=
  let p1 := emit p r.out
  let p2 := match r.err with
    | some e => emit p1 [Effect.elogError eventid
        ("Failed to " ++ cmd ++ " " ++ svcName ++ ": " ++ e)]
    | none => p1
  { sys := r.sys, proc := emit p2 [Effect.elogClose], exit := Exit.returned }

/-- The end of `main` inside `usage`: `os.Exit` ends the process at once; a
panic first runs the deferred `elog.Close()`. -/
def leave (sys : Sys) (p : Proc) (u : List Effect × Exit) : MainResult :=
  { sys := sys
    proc := if u.2 = Exit.panicked then emit p (u.1 ++ [Effect.elogClose]) else emit p u.1
    exit := u.2 }

/-- Go `main`, for `os.Args = args`.  `lower` is `strings.ToLower`; `fuel`
bounds the polling loop of `controlService`.  `eventlog.Open` is taken to
succeed. -/
def main (lower : String → String) (fuel : Nat) (env : Env) (sys : Sys)
    (args : List String) : MainResult :=
  let p0 := emit Proc.init [Effect.elogOpen svcName]
  let p1 := match env.sessErr with
    | some _ => emit p0 [Effect.elogError eventid
        "Failed to determine if we are running in an interactive session."]
    | none => p0
  if !env.isIntSess then
    match runService env p1 svcName with
    | (p2, true) => { sys := sys, proc := emit p2 [Effect.elogClose], exit := Exit.returned }
    | (p2, false) => { sys := sys, proc := p2, exit := Exit.running }
  else
    match args with
    | [] => leave sys p1 (usage args "No command specified!!!")
    | [_] => leave sys p1 (usage args "No command specified!!!")
    | prog :: arg :: _ =>
      let cmd := lower arg
      if cmd = "install" then finish p1 cmd (installService env sys prog svcName "Go HTTP Server")
      else if cmd = "remove" then finish p1 cmd (removeService env sys svcName)
      else if cmd = "start" then finish p1 cmd (startService env sys svcName)
      else if cmd = "stop" then
        match controlService fuel env sys svcName svc.Stop svc.Stopped with
        | some r => finish p1 cmd r
        | none => { sys := sys, proc := p1, exit := Exit.running }
      else
        leave sys p1 (usage args ("Invalid command " ++ cmd))

/-- Go `strings.ToLower` on ASCII text. -/
def lowerASCII (s : String) : String :=
  String.mk (s.data.map Char.toLower)

/-! ## Notions the claims are stated with -/

/-- A Stop or Shutdown request. -/
def isStop : Event → Bool
  | Event.tick => false
  | Event.request c => decide (c.Cmd = svc.Stop ∨ c.Cmd = svc.Shutdown)

/-- No Stop and no Shutdown request among the events. -/
def noStop (es : List Event) : Bool :=
  es.all (fun e => !isStop e)

/-- The statuses reported, oldest first. -/
def reports : List Effect → List svc.Status
  | [] => []
  | Effect.report s :: rest => s :: reports rest
  | _ :: rest => reports rest

/-- The status of the most recent report among the effects. -/
def lastReport (out : List Effect) : Option svc.Status :=
  (reports out).getLast?

/-- The state transition of the specification without Stop and Shutdown:
Pause gives Paused, Continue gives Running, anything else leaves the state. -/
def transition (st : Nat) : Event → Nat
  | Event.tick => st
  | Event.request c =>
    if c.Cmd = svc.Pause then svc.Paused
    else if c.Cmd = svc.Continue then svc.Running
    else st

/-- The state obtained by folding the events from Running. -/
def foldState (es : List Event) : Nat :=
  es.foldl transition svc.Running

/-- Every Interrogate among the events carries the status that the loop,
started in `l`, reported last before it received the request. -/
def echoes (l : Loop) : List Event → Bool
  | [] => true
  | Event.tick :: es => echoes (loop l [Event.tick]).1 es
  | Event.request c :: es =>
    (if c.Cmd = svc.Interrogate then decide (lastReport l.proc.out = some c.CurrentStatus)
     else true) && echoes (loop l [Event.request c]).1 es

/-- The state machine of section 4.1 of the specification, from Running:
Stop and Shutdown lead to StopPending, which is terminal. -/
def specStep (st : Nat) (e : Event) : Nat :=
  if st = svc.StopPending then st
  else if isStop e then svc.StopPending
  else transition st e

/-- The ServiceState of the specification after the events. -/
def specState (es : List Event) : Nat :=
  es.foldl specStep svc.Running

/-- The loop state `l` with the effects `x` put before what its process has
done. -/
def Loop.behind (x : List Effect) (l : Loop) : Loop :=
  { l with proc := { l.proc with out := x ++ l.proc.out } }

/-- The invariant of the dispatch interval in state `st`: the fast timer
when Running, the slow timer when Paused. -/
def intervalOk (st tick : Nat) : Prop :=
  (st = svc.Running → tick = fasttick) ∧ (st = svc.Paused → tick = slowtick)

/-- A status whose accepted controls are non-empty exactly when its state is
Running or Paused. -/
def acceptsOk (s : svc.Status) : Prop :=
  s.Accepts ≠ 0 ↔ (s.State = svc.Running ∨ s.State = svc.Paused)

/-- An Interrogate request that carries a Stopped status with the Stop
control accepted. -/
def staleInterrogate : svc.ChangeRequest :=
  { Cmd := svc.Interrogate
    CurrentStatus := { State := svc.Stopped, Accepts := svc.AcceptStop } }

/-- An Interrogate request that carries the status a Pause is answered with. -/
def pausedInterrogate : svc.ChangeRequest :=
  { Cmd := svc.Interrogate
    CurrentStatus := { State := svc.Paused, Accepts := cmdsAccepted } }

/-- A tick, a Pause, an Interrogate that echoes the Paused report, and a
request with the unknown code 99. -/
def sampleRun : List Event :=
  [Event.tick, Event.request { Cmd := svc.Pause }, Event.request pausedInterrogate,
   Event.request { Cmd := 99 }]

/-- An environment in which every call succeeds, the session is interactive,
and the service reports Stopped from the third query on. -/
def envOk : Env :=
  { abs := fun p => Except.ok ("C:/svc/" ++ p)
    stat := fun _ => Except.ok false
    ext := fun _ => ".exe"
    connectErr := none
    openErr := none
    createErr := none
    installErr := none
    deleteErr := none
    removeErr := none
    startErr := none
    controlResp := Except.ok { State := svc.StopPending }
    queryResp := fun k => Except.ok { State := if k < 2 then svc.StopPending else svc.Stopped }
    now := 0
    lag := fun _ => 0
    isIntSess := true
    sessErr := none
    svcRun := Except.ok [] }

/-- The environment `envOk` with a failing `eventlog.InstallAsEventCreate`. -/
def envSourceFails : Env :=
  { envOk with installErr := some "Access is denied." }

/-- The clock when the loop of `controlService` reaches its head for the
`k`-th time (from 0), all earlier iterations having gone on to sleep: the
answer of the `k`-th poll arrives then. -/
def headAt (env : Env) : Nat → Nat
  | 0 => env.now
  | k + 1 => headAt env k + env.lag k + 300 * time.Millisecond

/-- The clock as the `k`-th deadline check of `controlService` reads it. -/
def clockAt (env : Env) (k : Nat) : Nat :=
  headAt env k + env.lag k

/-- The status `controlService` holds at the `k`-th loop head: the answer of
`Control` for 0, the answer of query `k - 1` after that; `none` when that
call fails. -/
def statusAt (env : Env) : Nat → Option svc.Status
  | 0 =>
    match env.controlResp with
    | Except.ok s => some s
    | Except.error _ => none
  | k + 1 =>
    match env.queryResp k with
    | Except.ok s => some s
    | Except.error _ => none

/-- The effects of `n` polls: a sleep of 300 ms and a query each. -/
def polls : Nat → List Effect
  | 0 => []
  | n + 1 => Effect.sleep (300 * time.Millisecond) :: Effect.query :: polls n

/-- The environment `envOk` with a service that reports Stopped only from the
34th query on, which is made 10.2 s after the control was sent. -/
def envLate : Env :=
  { envOk with
    queryResp := fun k => Except.ok { State := if k < 33 then svc.StopPending else svc.Stopped } }

/-- The environment `envOk` with a service that reports Stopped only from the
51st query on, 15.3 s after the control was sent. -/
def envSlow : Env :=
  { envOk with
    queryResp := fun k => Except.ok { State := if k < 50 then svc.StopPending else svc.Stopped } }

/-- The environment `envOk` with status queries that fail. -/
def envQueryFails : Env :=
  { envOk with queryResp := fun _ => Except.error "Access is denied." }

/-- The registrations with the service of `main` installed. -/
def sysInstalled : Sys :=
  { services := [svcName], sources := [svcName] }

/-! ## Lemmas about the loop -/

theorem cmdsAccepted_eq : cmdsAccepted = 7 := by decide

theorem reports_append (xs ys : List Effect) :
    reports (xs ++ ys) = reports xs ++ reports ys := by
  induction xs with
  | nil => simp [reports]
  | cons x xs ih => cases x <;> simp [reports, ih]

theorem noStop_append (xs ys : List Event) :
    noStop (xs ++ ys) = (noStop xs && noStop ys) := by
  simp [noStop, List.all_append]

theorem loop_append (l : Loop) (pre es : List Event) (h : noStop pre = true) :
    loop l (pre ++ es) = loop (loop l pre).1 es := by
  induction pre generalizing l with
  | nil => simp [loop]
  | cons e pre ih =>
    have hp : noStop pre = true := by
      simp [noStop] at h ⊢; exact h.2
    cases e with
    | tick => simp only [List.cons_append, loop]; exact ih _ hp
    | request c =>
      have hc : ¬ (c.Cmd = svc.Stop ∨ c.Cmd = svc.Shutdown) := by
        simp [noStop, isStop] at h; tauto
      simp only [List.cons_append, loop, hc, if_false]
      split_ifs <;> exact ih _ hp

theorem loop_noStop (l : Loop) (es : List Event) (h : noStop es = true) :
    (loop l es).2 = false := by
  induction es generalizing l with
  | nil => simp [loop]
  | cons e es ih =>
    have hp : noStop es = true := by
      simp [noStop] at h ⊢; exact h.2
    cases e with
    | tick => simp only [loop]; exact ih _ hp
    | request c =>
      have hc : ¬ (c.Cmd = svc.Stop ∨ c.Cmd = svc.Shutdown) := by
        simp [noStop, isStop] at h; tauto
      simp only [loop, hc, if_false]
      split_ifs <;> exact ih _ hp

theorem Execute_noStop (p : Proc) (es : List Event) (h : noStop es = true) :
    Execute p es =
      { proc := (loop (enter p) es).1.proc, tick := (loop (enter p) es).1.tick,
        calls := (loop (enter p) es).1.calls, returned := none } := by
  have h2 := loop_noStop (enter p) es h
  unfold Execute
  rcases hl : loop (enter p) es with ⟨l, b⟩
  rw [hl] at h2
  simp only at h2
  subst h2
  rfl

theorem Execute_snoc (p : Proc) (pre : List Event) (e : Event) (h : noStop pre = true) :
    loop (enter p) (pre ++ [e]) = loop (loop (enter p) pre).1 [e] :=
  loop_append (enter p) pre [e] h

theorem foldl_specStep_stopPending (es : List Event) :
    es.foldl specStep svc.StopPending = svc.StopPending := by
  induction es with
  | nil => rfl
  | cons e es ih => simpa [List.foldl, specStep] using ih

theorem runApp_idle (p : Proc) (h : p.isFirstRun = false) : runApp p = p := by
  simp [runApp, h]

theorem runAppTimes_idle (n : Nat) (p : Proc) (h : p.isFirstRun = false) :
    runAppTimes n p = p := by
  induction n with
  | zero => rfl
  | succ n ih => simp [runAppTimes, runApp_idle p h, ih]

theorem runApp_behind (x : List Effect) (p : Proc) :
    runApp { p with out := x ++ p.out } =
      { runApp p with out := x ++ (runApp p).out } := by
  unfold runApp
  by_cases h : p.isFirstRun = true <;> simp [h, emit]

theorem loop_behind (x : List Effect) (l : Loop) (es : List Event) :
    loop (l.behind x) es = ((loop l es).1.behind x, (loop l es).2) := by
  induction es generalizing l with
  | nil => simp [loop]
  | cons e es ih =>
    cases e with
    | tick =>
      simp only [loop]
      rw [← ih]
      simp [Loop.behind, runApp_behind]
    | request c =>
      simp only [loop]
      split_ifs
      · rw [← ih]; simp [Loop.behind, emit]
      · simp [Loop.behind, emit]
      · rw [← ih]; simp [Loop.behind, emit]
      · rw [← ih]; simp [Loop.behind, emit]
      · rw [← ih]; simp [Loop.behind, emit]

theorem runApp_out (p : Proc) :
    ∃ x, (runApp p).out = p.out ++ x ∧ reports x = [] := by
  unfold runApp
  by_cases h : p.isFirstRun = true
  · exact ⟨setup, by simp [h, emit], by simp [setup, reports]⟩
  · exact ⟨[], by simp [h], rfl⟩

theorem loop_intervalOk (l : Loop) (st : Nat) (es : List Event)
    (hst : st = svc.Running ∨ st = svc.Paused) (hi : intervalOk st l.tick) :
    ((loop l es).2 = false →
      (es.foldl specStep st = svc.Running ∨ es.foldl specStep st = svc.Paused) ∧
      intervalOk (es.foldl specStep st) (loop l es).1.tick) ∧
    ((loop l es).2 = true → es.foldl specStep st = svc.StopPending) := by
  have hsp : st ≠ svc.StopPending := by
    rcases hst with h | h <;> simp [h, svc.Running, svc.Paused, svc.StopPending]
  induction es generalizing l st with
  | nil => simp [loop, hst, hi]
  | cons e es ih =>
    cases e with
    | tick =>
      simp only [loop, List.foldl, specStep, hsp, if_false, isStop, transition]
      exact ih _ st hst hi hsp
    | request c =>
      simp only [loop, List.foldl, specStep, hsp, if_false, isStop, transition]
      by_cases h1 : c.Cmd = svc.Interrogate
      · have h2 : ¬ (c.Cmd = svc.Stop ∨ c.Cmd = svc.Shutdown) := by
          simp [h1, svc.Interrogate, svc.Stop, svc.Shutdown]
        have h3 : c.Cmd ≠ svc.Pause := by simp [h1, svc.Interrogate, svc.Pause]
        have h4 : c.Cmd ≠ svc.Continue := by simp [h1, svc.Interrogate, svc.Continue]
        simp only [h1, if_true]
        rw [← h1]
        simp only [h2, decide_False, h3, h4, if_false, Bool.false_eq_true]
        exact ih _ st hst hi hsp
      · by_cases h2 : c.Cmd = svc.Stop ∨ c.Cmd = svc.Shutdown
        · simp only [h1, h2, if_true, if_false, decide_True, foldl_specStep_stopPending]
          simp
        · simp only [h1, h2, if_false, decide_False, Bool.false_eq_true]
          by_cases h3 : c.Cmd = svc.Pause
          · simp only [h3, if_true]
            exact ih _ _ (Or.inr rfl)
              ⟨by simp [svc.Paused, svc.Running], fun _ => rfl⟩
              (by simp [svc.Paused, svc.StopPending])
          · by_cases h4 : c.Cmd = svc.Continue
            · have h5 : ¬ svc.Continue = svc.Pause := by decide
              simp only [h4, h5, if_true, if_false]
              exact ih _ _ (Or.inl rfl)
                ⟨fun _ => rfl, by simp [svc.Paused, svc.Running]⟩
                (by simp [svc.Running, svc.StopPending])
            · simp only [h3, h4, if_false]
              exact ih _ st hst hi hsp

theorem Execute_tick (p : Proc) (es : List Event) :
    (Execute p es).tick = (loop (enter p) es).1.tick := by
  unfold Execute
  rcases loop (enter p) es with ⟨l, b⟩
  cases b <;> rfl

theorem Execute_returned (p : Proc) (es : List Event) :
    (Execute p es).returned = none ↔ (loop (enter p) es).2 = false := by
  unfold Execute
  rcases loop (enter p) es with ⟨l, b⟩
  cases b <;> simp

theorem lastReport_append_quiet (xs ys : List Effect) (h : reports ys = []) :
    lastReport (xs ++ ys) = lastReport xs := by
  simp [lastReport, reports_append, h]

theorem lastReport_append_report (xs ys : List Effect) (s : svc.Status) :
    lastReport (xs ++ ys ++ [Effect.report s]) = some s := by
  simp [lastReport, reports_append, reports]

theorem acceptsOk_live (st : Nat) (hst : st = svc.Running ∨ st = svc.Paused) :
    acceptsOk { State := st, Accepts := cmdsAccepted } := by
  simp [acceptsOk, cmdsAccepted_eq, hst]

theorem loop_one_reports (l : Loop) (st : Nat) (e : Event)
    (hst : st = svc.Running ∨ st = svc.Paused)
    (hl : lastReport l.proc.out = some { State := st, Accepts := cmdsAccepted })
    (h : noStop [e] = true) (he : echoes l [e] = true) :
    ∃ x, (loop l [e]).1.proc.out = l.proc.out ++ x ∧
      lastReport (l.proc.out ++ x) =
        some { State := transition st e, Accepts := cmdsAccepted } ∧
      (∀ s ∈ reports x, acceptsOk s) ∧
      (transition st e = svc.Running ∨ transition st e = svc.Paused) := by
  cases e with
  | tick =>
    obtain ⟨x, hx, hq⟩ := runApp_out l.proc
    refine ⟨x, by simpa [loop] using hx, ?_, ?_, by simpa [transition] using hst⟩
    · rw [lastReport_append_quiet _ _ hq, hl]; simp [transition]
    · simp [hq]
  | request c =>
    have hc : ¬ (c.Cmd = svc.Stop ∨ c.Cmd = svc.Shutdown) := by
      simp [noStop, isStop] at h; tauto
    by_cases h1 : c.Cmd = svc.Interrogate
    · have h3 : c.Cmd ≠ svc.Pause := by simp [h1, svc.Interrogate, svc.Pause]
      have h4 : c.Cmd ≠ svc.Continue := by simp [h1, svc.Interrogate, svc.Continue]
      have hs : c.CurrentStatus = { State := st, Accepts := cmdsAccepted } := by
        simp [echoes, h1, hl] at he
        exact he.symm
      refine ⟨[Effect.report c.CurrentStatus, Effect.sleep (100 * time.Millisecond),
        Effect.report c.CurrentStatus], by simp [loop, h1, emit], ?_, ?_, ?_⟩
      · simp [lastReport, reports_append, reports, transition, h3, h4, hs]
      · intro s hs2
        simp [reports, hs] at hs2
        rw [hs2]
        exact acceptsOk_live st hst
      · simpa [transition, h3, h4] using hst
    · by_cases h3 : c.Cmd = svc.Pause
      · refine ⟨[Effect.report { State := svc.Paused, Accepts := cmdsAccepted }],
          by simp [loop, h3, emit, svc.Pause, svc.Interrogate, svc.Stop, svc.Shutdown], ?_, ?_, ?_⟩
        · simp [lastReport, reports_append, reports, transition, h3]
        · intro s hs2
          simp [reports] at hs2
          rw [hs2]
          exact acceptsOk_live _ (Or.inr rfl)
        · simp [transition, h3]
      · by_cases h4 : c.Cmd = svc.Continue
        · refine ⟨[Effect.report { State := svc.Running, Accepts := cmdsAccepted }],
            by simp [loop, h4, emit, svc.Continue, svc.Pause, svc.Interrogate, svc.Stop,
              svc.Shutdown], ?_, ?_, ?_⟩
          · simp [lastReport, reports_append, reports, transition, h4, svc.Continue, svc.Pause]
          · intro s hs2
            simp [reports] at hs2
            rw [hs2]
            exact acceptsOk_live _ (Or.inl rfl)
          · simp [transition, h4, svc.Continue, svc.Pause]
        · refine ⟨[Effect.elogError eventid
              ("Unexpected control request #" ++ fmtChangeRequest c)],
            by simp [loop, h1, hc, h3, h4, emit], ?_, ?_, ?_⟩
          · rw [lastReport_append_quiet _ _ (by simp [reports]), hl]
            simp [transition, h3, h4]
          · simp [reports]
          · simpa [transition, h3, h4] using hst

theorem echoes_cons (l : Loop) (e : Event) (es : List Event) :
    echoes l (e :: es) = (echoes l [e] && echoes (loop l [e]).1 es) := by
  cases e <;> simp [echoes]

theorem loop_reports (l : Loop) (st : Nat) (es : List Event)
    (hst : st = svc.Running ∨ st = svc.Paused)
    (hl : lastReport l.proc.out = some { State := st, Accepts := cmdsAccepted })
    (h : noStop es = true) (he : echoes l es = true) :
    ∃ em, (loop l es).1.proc.out = l.proc.out ++ em ∧
      lastReport (l.proc.out ++ em) =
        some { State := es.foldl transition st, Accepts := cmdsAccepted } ∧
      ∀ s ∈ reports em, acceptsOk s := by
  induction es generalizing l st with
  | nil => exact ⟨[], by simp [loop], by simpa using hl, by simp [reports]⟩
  | cons e es ih =>
    have h1 : noStop [e] = true ∧ noStop es = true := by
      have := noStop_append [e] es
      simp only [List.singleton_append] at this
      rw [this] at h
      simpa using h
    rw [echoes_cons] at he
    simp only [Bool.and_eq_true] at he
    obtain ⟨x, hx, hlx, hax, hst2⟩ := loop_one_reports l st e hst hl h1.1 he.1
    have hcons : loop l (e :: es) = loop (loop l [e]).1 es :=
      loop_append l [e] es h1.1
    obtain ⟨em, hem, hlem, haem⟩ :=
      ih (loop l [e]).1 (transition st e) hst2 (by rw [hx]; exact hlx) h1.2 he.2
    refine ⟨x ++ em, ?_, ?_, ?_⟩
    · rw [hcons, hem, hx, List.append_assoc]
    · rw [← List.append_assoc, ← hx]
      simpa [List.foldl] using hlem
    · intro s hs
      rw [reports_append, List.mem_append] at hs
      rcases hs with hs | hs
      · exact hax s hs
      · exact haem s hs

theorem headAt_ge (env : Env) (k : Nat) :
    env.now + k * (300 * time.Millisecond) ≤ headAt env k := by
  induction k with
  | zero => simp [headAt]
  | succ k ih =>
    simp only [headAt]
    have : (k + 1) * (300 * time.Millisecond) =
        k * (300 * time.Millisecond) + 300 * time.Millisecond := by ring
    omega

theorem statusAt_succ (env : Env) (k : Nat) (s : svc.Status)
    (h : statusAt env (k + 1) = some s) : env.queryResp k = Except.ok s := by
  unfold statusAt at h
  cases hq : env.queryResp k with
  | error e => simp [hq] at h
  | ok t => simp [hq] at h; rw [h]

theorem await_steps (env : Env) (toState timeout fuel : Nat) :
    ∀ (d k n : Nat) (status last : svc.Status), k + d = n →
      statusAt env k = some status → statusAt env n = some last →
      (∀ j, k ≤ j → j < n →
        ∃ s, statusAt env j = some s ∧ s.State ≠ toState ∧ clockAt env j ≤ timeout) →
      await env toState timeout (d + fuel) k (headAt env k) status =
        match await env toState timeout fuel n (headAt env n) last with
        | none => none
        | some (out, r) => some (polls d ++ out, r) := by
  intro d
  induction d with
  | zero =>
    intro k n status last hk hs hl _
    simp only [Nat.add_zero] at hk
    subst hk
    rw [hs] at hl
    cases hl
    simp only [Nat.zero_add, polls, List.nil_append]
    cases await env toState timeout fuel k (headAt env k) status with
    | none => rfl
    | some x => rfl
  | succ d ih =>
    intro k n status last hk hs hl hpass
    obtain ⟨s, hs1, hne, hclock⟩ := hpass k le_rfl (by omega)
    rw [hs] at hs1
    cases hs1
    obtain ⟨s1, hs2⟩ : ∃ s1, statusAt env (k + 1) = some s1 := by
      by_cases hkn : k + 1 < n
      · obtain ⟨s1, h1, _⟩ := hpass (k + 1) (by omega) hkn
        exact ⟨s1, h1⟩
      · have : k + 1 = n := by omega
        rw [this]
        exact ⟨last, hl⟩
    have hq := statusAt_succ env k s1 hs2
    have hnt : ¬ timeout < headAt env k + env.lag k := by
      unfold clockAt at hclock
      omega
    have hrec := ih (k + 1) n s1 last (by omega) hs2 hl
      (fun j hj hjn => hpass j (by omega) hjn)
    have hfuel : d + 1 + fuel = (d + fuel) + 1 := by omega
    rw [hfuel]
    simp only [await, hne, hnt, hq, ne_eq, not_false_eq_true, if_true, if_false]
    simp only [headAt] at hrec
    rw [hrec]
    cases await env toState timeout fuel n (headAt env n) last with
    | none => rfl
    | some x => rfl

theorem polls_succ (m : Nat) :
    polls (m + 1) = polls m ++ [Effect.sleep (300 * time.Millisecond), Effect.query] := by
  induction m with
  | zero => rfl
  | succ m ih =>
    calc polls (m + 2)
        = Effect.sleep (300 * time.Millisecond) :: Effect.query :: polls (m + 1) := rfl
      _ = Effect.sleep (300 * time.Millisecond) :: Effect.query ::
            (polls m ++ [Effect.sleep (300 * time.Millisecond), Effect.query]) := by rw [ih]
      _ = polls (m + 1) ++ [Effect.sleep (300 * time.Millisecond), Effect.query] := rfl

theorem loop_inserted (L : Loop) (x : List Effect) (post : List Event) :
    ∃ rest : List Effect,
      (loop L post).1.proc.out = L.proc.out ++ rest ∧
      (loop { L with proc := emit L.proc x } post).1.proc.out = L.proc.out ++ x ++ rest ∧
      (loop { L with proc := emit L.proc x } post).1.proc.isFirstRun =
        (loop L post).1.proc.isFirstRun ∧
      (loop { L with proc := emit L.proc x } post).1.tick = (loop L post).1.tick ∧
      (loop { L with proc := emit L.proc x } post).1.calls = (loop L post).1.calls ∧
      (loop { L with proc := emit L.proc x } post).2 = (loop L post).2 := by
  obtain ⟨L0, hL0⟩ : ∃ L0 : Loop, L0 =
      { proc := { isFirstRun := L.proc.isFirstRun, out := [] }
        tick := L.tick, calls := L.calls } := ⟨_, rfl⟩
  have e1 : L0.behind L.proc.out = L := by
    simp [Loop.behind, hL0]
  have e2 : L0.behind (L.proc.out ++ x) = { L with proc := emit L.proc x } := by
    simp [Loop.behind, hL0, emit]
  have f1 := loop_behind L.proc.out L0 post
  have f2 := loop_behind (L.proc.out ++ x) L0 post
  rw [e1] at f1
  rw [e2] at f2
  rw [f1, f2]
  exact ⟨(loop L0 post).1.proc.out, by simp [Loop.behind]⟩

/-! ## The claims -/

/-- C6: from a process whose first-run guard is still set (the initial
process among them), `N ≥ 1` consecutive calls of `runApp` do the one-time
setup exactly once: all that the `N` calls do is what the first call does,
namely log the start notice once and start once the listener on port 8080
with the router built for it (the root route, the static files, the
not-found handler); every call after the first changes nothing, and the
guard is cleared after every number `k ≥ 1` of calls. -/
theorem runApp_setup_exactly_once (N : Nat) (p : Proc) (hN : 1 ≤ N)
    (hp : p.isFirstRun = true) :
    runAppTimes N p =
      { isFirstRun := false
        out := p.out ++
          [Effect.elogInfo 10001 "Start HTTP Server",
           Effect.serve ":8080"
             { strictSlash := true
               routes := [Route.handleFunc "/" "GET" "Hello World",
                          Route.fileServer "/static/" "/static/" "C:/wwwRoot/static/"]
               notFoundStatus := 404
               notFoundBody := "Not Found" }] } ∧
    runAppTimes 1 p = runAppTimes N p ∧
    (runAppTimes N p).out.count (Effect.elogInfo 10001 "Start HTTP Server") =
      p.out.count (Effect.elogInfo 10001 "Start HTTP Server") + 1 ∧
    (runAppTimes N p).out.count (Effect.serve ":8080" gmux) =
      p.out.count (Effect.serve ":8080" gmux) + 1 ∧
    (∀ k, 1 ≤ k → (runAppTimes k p).isFirstRun = false) ∧
    (∀ k, 1 ≤ k → runApp (runAppTimes k p) = runAppTimes k p) ∧
    (∀ k, 1 ≤ k → runAppTimes k p = runAppTimes 1 p) := by
  have first : runApp p = { isFirstRun := false, out := p.out ++ setup } := by
    simp [runApp, hp, emit]
  have all : ∀ k, 1 ≤ k → runAppTimes k p = { isFirstRun := false, out := p.out ++ setup } := by
    intro k hk
    obtain ⟨m, rfl⟩ : ∃ m, k = m + 1 := ⟨k - 1, by omega⟩
    simp only [runAppTimes, first]
    exact runAppTimes_idle m _ rfl
  refine ⟨?_, ?_, ?_, ?_, ?_, ?_, ?_⟩
  · rw [all N hN]; rfl
  · rw [all N hN, all 1 le_rfl]
  · rw [all N hN]
    simp [setup, eventid, List.count_append, List.count_cons]
  · rw [all N hN]
    simp [setup, List.count_append, List.count_cons]
  · intro k hk
    rw [all k hk]
  · intro k hk
    rw [all k hk]
    exact runApp_idle _ rfl
  · intro k hk
    rw [all k hk, all 1 le_rfl]

/-- C6 at three calls from the initial process: the start notice and the
listener, once each. -/
theorem runApp_setup_exactly_once_witness :
    1 ≤ 3 ∧ Proc.init.isFirstRun = true ∧
    runAppTimes 3 Proc.init =
      { isFirstRun := false
        out :=
          [Effect.elogInfo 10001 "Start HTTP Server",
           Effect.serve ":8080"
             { strictSlash := true
               routes := [Route.handleFunc "/" "GET" "Hello World",
                          Route.fileServer "/static/" "/static/" "C:/wwwRoot/static/"]
               notFoundStatus := 404
               notFoundBody := "Not Found" }] } :=
  ⟨by decide, rfl, (runApp_setup_exactly_once 3 Proc.init (by decide) rfl).1⟩

/-- C3: an Interrogate request that the loop receives, whatever status it
carries, makes `Execute` send exactly that status twice, with one sleep of
100 ms between the two reports, and nothing else: what the run has done is
what it had done before the request followed by report, sleep, report, and
the reports of the run are those before followed by the carried status
twice.  The first-run guard, the active timer, the number of `runApp` calls
and the state of the specification stay as they were and the loop goes on:
whatever events follow are handled as they are without the Interrogate. -/
theorem interrogate_echoes_twice (p : Proc) (pre : List Event) (c : svc.ChangeRequest)
    (hc : c.Cmd = svc.Interrogate) (h : noStop pre = true) :
    (Execute p (pre ++ [Event.request c])).proc.out =
      (Execute p pre).proc.out ++
        [Effect.report c.CurrentStatus, Effect.sleep 100000000,
         Effect.report c.CurrentStatus] ∧
    reports (Execute p (pre ++ [Event.request c])).proc.out =
      reports (Execute p pre).proc.out ++ [c.CurrentStatus, c.CurrentStatus] ∧
    lastReport (Execute p (pre ++ [Event.request c])).proc.out = some c.CurrentStatus ∧
    Execute p (pre ++ [Event.request c]) =
      { proc := emit (Execute p pre).proc
          [Effect.report c.CurrentStatus, Effect.sleep (100 * time.Millisecond),
           Effect.report c.CurrentStatus]
        tick := (Execute p pre).tick
        calls := (Execute p pre).calls
        returned := none } ∧
    (Execute p (pre ++ [Event.request c])).proc.isFirstRun = (Execute p pre).proc.isFirstRun ∧
    specState (pre ++ [Event.request c]) = specState pre ∧
    ∀ post : List Event, ∃ rest : List Effect,
      (Execute p (pre ++ post)).proc.out = (Execute p pre).proc.out ++ rest ∧
      (Execute p (pre ++ Event.request c :: post)).proc.out =
        (Execute p pre).proc.out ++
          [Effect.report c.CurrentStatus, Effect.sleep 100000000,
           Effect.report c.CurrentStatus] ++ rest ∧
      (Execute p (pre ++ Event.request c :: post)).proc.isFirstRun =
        (Execute p (pre ++ post)).proc.isFirstRun ∧
      (Execute p (pre ++ Event.request c :: post)).tick = (Execute p (pre ++ post)).tick ∧
      (Execute p (pre ++ Event.request c :: post)).calls = (Execute p (pre ++ post)).calls ∧
      (Execute p (pre ++ Event.request c :: post)).returned =
        (Execute p (pre ++ post)).returned := by
  have hms : 100 * time.Millisecond = 100000000 := by decide
  have key : Execute p (pre ++ [Event.request c]) =
      { proc := emit (Execute p pre).proc
          [Effect.report c.CurrentStatus, Effect.sleep (100 * time.Millisecond),
           Effect.report c.CurrentStatus]
        tick := (Execute p pre).tick
        calls := (Execute p pre).calls
        returned := none } := by
    have hn : noStop (pre ++ [Event.request c]) = true := by
      rw [noStop_append, h]
      simp [noStop, isStop, hc, svc.Interrogate, svc.Stop, svc.Shutdown]
    rw [Execute_noStop p _ hn, Execute_noStop p _ h, Execute_snoc p pre _ h]
    simp [loop, hc]
  refine ⟨?_, ?_, ?_, key, ?_, ?_, ?_⟩
  · rw [key]; simp [emit, hms]
  · rw [key]; simp [emit, reports_append, reports]
  · rw [key]; simp [emit, lastReport, reports_append, reports]
  · rw [key]; simp [emit]
  · simp [specState, List.foldl_append, specStep, isStop, transition, hc, svc.Interrogate,
      svc.Stop, svc.Shutdown, svc.Pause, svc.Continue]
  · intro post
    rw [Execute_noStop p _ h]
    simp only [Execute]
    rw [loop_append _ _ post h, loop_append _ _ (Event.request c :: post) h]
    generalize (loop (enter p) pre).1 = L
    obtain ⟨x, hx⟩ : ∃ x : List Effect, x =
        [Effect.report c.CurrentStatus, Effect.sleep 100000000,
         Effect.report c.CurrentStatus] := ⟨_, rfl⟩
    have e2 : loop L (Event.request c :: post) = loop { L with proc := emit L.proc x } post := by
      simp [loop, hc, hms, hx]
    obtain ⟨rest, r1, r2, r3, r4, r5, r6⟩ := loop_inserted L x post
    rw [e2, ← hx]
    rcases hA : loop L post with ⟨A, a⟩
    rcases hB : loop { L with proc := emit L.proc x } post with ⟨B, b⟩
    rw [hB] at r2
    rw [hA, hB] at r3 r4 r5 r6
    rw [hA] at r1
    simp only at r1 r2 r3 r4 r5 r6
    subst r6
    cases b
    · exact ⟨rest, by simp [r1, r2, r3, r4, r5]⟩
    · exact ⟨rest ++ [Effect.report { State := svc.StopPending }],
        by simp [r1, r2, r3, r4, r5, emit]⟩

/-- C3 at an Interrogate that carries a Stopped status, after a tick and a
Pause: the whole run, ending in the two echoes around the sleep. -/
theorem interrogate_echoes_twice_witness :
    noStop [Event.tick, Event.request { Cmd := svc.Pause }] = true ∧
    (Execute Proc.init ([Event.tick, Event.request { Cmd := svc.Pause }] ++
      [Event.request { Cmd := svc.Interrogate, CurrentStatus := { State := svc.Stopped } }])
      ).proc.out =
      [Effect.report { State := 2 }, Effect.report { State := 4, Accepts := 7 },
       Effect.elogInfo 10001 "Start HTTP Server", Effect.serve ":8080" gmux,
       Effect.report { State := 7, Accepts := 7 },
       Effect.report { State := 1 }, Effect.sleep 100000000,
       Effect.report { State := 1 }] :=
  ⟨by decide,
    (interrogate_echoes_twice Proc.init [Event.tick, Event.request { Cmd := svc.Pause }]
      { Cmd := svc.Interrogate, CurrentStatus := { State := svc.Stopped } } rfl
      (by decide)).1.trans (by decide)⟩

/-- C4: when the loop receives its first Stop or Shutdown, `Execute` logs
the shutdown notice, leaves the loop, sends one StopPending report with no
accepted controls and returns; whatever events follow are not received: the
result does not depend on them, no later tick calls `runApp`, no later request
is answered, and the StopPending report is the last report of the run. -/
theorem stop_is_terminal (p : Proc) (pre post : List Event) (c : svc.ChangeRequest)
    (hc : c.Cmd = svc.Stop ∨ c.Cmd = svc.Shutdown) (h : noStop pre = true) :
    Execute p (pre ++ Event.request c :: post) =
      { proc := emit (Execute p pre).proc
          [Effect.elogInfo eventid "Shutdown HTTP Server",
           Effect.report { State := svc.StopPending, Accepts := 0 }]
        tick := (Execute p pre).tick
        calls := (Execute p pre).calls
        returned := some (false, 0) } ∧
    lastReport (Execute p (pre ++ Event.request c :: post)).proc.out =
      some { State := svc.StopPending, Accepts := 0 } := by
  have hi : c.Cmd ≠ svc.Interrogate := by
    rcases hc with hc | hc <;> simp [hc, svc.Stop, svc.Shutdown, svc.Interrogate]
  have key : Execute p (pre ++ Event.request c :: post) =
      { proc := emit (Execute p pre).proc
          [Effect.elogInfo eventid "Shutdown HTTP Server",
           Effect.report { State := svc.StopPending, Accepts := 0 }]
        tick := (Execute p pre).tick
        calls := (Execute p pre).calls
        returned := some (false, 0) } := by
    rw [Execute_noStop p _ h]
    unfold Execute
    rw [loop_append _ _ _ h]
    simp [loop, hc, hi, emit]
  refine ⟨key, ?_⟩
  rw [key]
  simp [lastReport, emit, reports_append, reports]

/-- C4 at a Stop between ticks and requests. -/
theorem stop_is_terminal_witness :
    noStop [Event.request { Cmd := svc.Pause }] = true ∧
    (Execute Proc.init ([Event.request { Cmd := svc.Pause }] ++
      Event.request { Cmd := svc.Stop } ::
        [Event.tick, Event.request { Cmd := svc.Continue }])).returned = some (false, 0) := by
  refine ⟨by decide, ?_⟩
  rw [(stop_is_terminal Proc.init [Event.request { Cmd := svc.Pause }]
    [Event.tick, Event.request { Cmd := svc.Continue }] { Cmd := svc.Stop }
    (Or.inl rfl) (by decide)).1]

/-- C2: after any events the `select` has received, the variable `tick` of
`Execute` holds the fast timer (500 ms) whenever the service state of the
specification is Running and the slow timer (2 s) whenever it is Paused, and
while the loop runs the state is one of the two.  On entry the last report is
Running and the fast timer is selected; a Pause the loop receives reports
Paused and selects the slow timer; a Continue reports Running and selects the
fast timer. -/
theorem dispatch_interval_invariant (p : Proc) (evs : List Event) :
    (specState evs = svc.Running → (Execute p evs).tick = fasttick) ∧
    (specState evs = svc.Paused → (Execute p evs).tick = slowtick) ∧
    ((Execute p evs).returned = none →
      specState evs = svc.Running ∨ specState evs = svc.Paused) ∧
    ((Execute p []).tick = fasttick ∧
      lastReport (Execute p []).proc.out =
        some { State := svc.Running, Accepts := cmdsAccepted }) ∧
    (∀ pre c, noStop pre = true → c.Cmd = svc.Pause →
      (Execute p (pre ++ [Event.request c])).tick = slowtick ∧
      specState (pre ++ [Event.request c]) = svc.Paused ∧
      lastReport (Execute p (pre ++ [Event.request c])).proc.out =
        some { State := svc.Paused, Accepts := cmdsAccepted }) ∧
    (∀ pre c, noStop pre = true → c.Cmd = svc.Continue →
      (Execute p (pre ++ [Event.request c])).tick = fasttick ∧
      specState (pre ++ [Event.request c]) = svc.Running ∧
      lastReport (Execute p (pre ++ [Event.request c])).proc.out =
        some { State := svc.Running, Accepts := cmdsAccepted }) ∧
    fasttick = 500 * time.Millisecond ∧ slowtick = 2 * time.Second := by
  have start : intervalOk svc.Running (enter p).tick :=
    ⟨fun _ => rfl, by simp [svc.Running, svc.Paused]⟩
  have inv : ∀ es : List Event,
      ((loop (enter p) es).2 = false →
        (specState es = svc.Running ∨ specState es = svc.Paused) ∧
        intervalOk (specState es) (loop (enter p) es).1.tick) ∧
      ((loop (enter p) es).2 = true → specState es = svc.StopPending) :=
    fun es => loop_intervalOk (enter p) svc.Running es (Or.inl rfl) start
  have live : ∀ pre : List Event, noStop pre = true →
      specState pre ≠ svc.StopPending := by
    intro pre h
    rcases ((inv pre).1 (loop_noStop _ _ h)).1 with h1 | h1 <;>
      simp [h1, svc.Running, svc.Paused, svc.StopPending]
  refine ⟨?_, ?_, ?_, ?_, ?_, ?_, rfl, rfl⟩
  · intro h
    rw [Execute_tick]
    cases hb : (loop (enter p) evs).2
    · exact ((inv evs).1 hb).2.1 h
    · rw [(inv evs).2 hb] at h
      simp [svc.StopPending, svc.Running] at h
  · intro h
    rw [Execute_tick]
    cases hb : (loop (enter p) evs).2
    · exact ((inv evs).1 hb).2.2 h
    · rw [(inv evs).2 hb] at h
      simp [svc.StopPending, svc.Paused] at h
  · intro h
    exact ((inv evs).1 ((Execute_returned p evs).1 h)).1
  · constructor
    · rfl
    · simp [Execute, loop, enter, emit, lastReport, reports_append, reports]
  · intro pre c h hc
    have hn : noStop (pre ++ [Event.request c]) = true := by
      rw [noStop_append, h]
      simp [noStop, isStop, hc, svc.Pause, svc.Stop, svc.Shutdown]
    refine ⟨?_, ?_, ?_⟩
    · rw [Execute_tick, Execute_snoc p pre _ h]
      simp [loop, hc, svc.Pause, svc.Interrogate, svc.Stop, svc.Shutdown]
    · have := live pre h
      simp only [specState] at this
      simp [specState, List.foldl_append, specStep, this, isStop, transition, hc,
        svc.Pause, svc.Stop, svc.Shutdown]
    · rw [Execute_noStop p _ hn, Execute_snoc p pre _ h]
      simp [loop, hc, svc.Pause, svc.Interrogate, svc.Stop, svc.Shutdown, emit,
        lastReport, reports_append, reports]
  · intro pre c h hc
    have hn : noStop (pre ++ [Event.request c]) = true := by
      rw [noStop_append, h]
      simp [noStop, isStop, hc, svc.Continue, svc.Stop, svc.Shutdown]
    refine ⟨?_, ?_, ?_⟩
    · rw [Execute_tick, Execute_snoc p pre _ h]
      simp [loop, hc, svc.Continue, svc.Pause, svc.Interrogate, svc.Stop, svc.Shutdown]
    · have := live pre h
      simp only [specState] at this
      simp [specState, List.foldl_append, specStep, this, isStop, transition, hc,
        svc.Continue, svc.Pause, svc.Stop, svc.Shutdown]
    · rw [Execute_noStop p _ hn, Execute_snoc p pre _ h]
      simp [loop, hc, svc.Continue, svc.Pause, svc.Interrogate, svc.Stop, svc.Shutdown, emit,
        lastReport, reports_append, reports]

/-- C5: a request whose code is none of Interrogate, Stop, Shutdown, Pause
and Continue, received by the loop, makes `Execute` log one error entry and
nothing else: no report is sent, the first-run guard, the active timer and
the number of `runApp` calls stay as they were, and the loop goes on.  The
events after it are handled as without it: the two runs do the same things
after the common beginning, the error entry apart, and end in the same
state. -/
theorem unknown_request_only_logged (p : Proc) (pre post : List Event)
    (c : svc.ChangeRequest)
    (hc : c.Cmd ≠ svc.Interrogate ∧ c.Cmd ≠ svc.Stop ∧ c.Cmd ≠ svc.Shutdown ∧
      c.Cmd ≠ svc.Pause ∧ c.Cmd ≠ svc.Continue)
    (h : noStop pre = true) :
    Execute p (pre ++ [Event.request c]) =
      { proc := emit (Execute p pre).proc
          [Effect.elogError eventid ("Unexpected control request #" ++ fmtChangeRequest c)]
        tick := (Execute p pre).tick
        calls := (Execute p pre).calls
        returned := none } ∧
    ∃ rest : List Effect,
      (Execute p (pre ++ post)).proc.out = (Execute p pre).proc.out ++ rest ∧
      (Execute p (pre ++ Event.request c :: post)).proc.out =
        (Execute p pre).proc.out ++
          Effect.elogError eventid ("Unexpected control request #" ++ fmtChangeRequest c)
            :: rest ∧
      (Execute p (pre ++ Event.request c :: post)).proc.isFirstRun =
        (Execute p (pre ++ post)).proc.isFirstRun ∧
      (Execute p (pre ++ Event.request c :: post)).tick = (Execute p (pre ++ post)).tick ∧
      (Execute p (pre ++ Event.request c :: post)).calls = (Execute p (pre ++ post)).calls ∧
      (Execute p (pre ++ Event.request c :: post)).returned =
        (Execute p (pre ++ post)).returned := by
  obtain ⟨h1, h2, h3, h4, h5⟩ := hc
  have h23 : ¬ (c.Cmd = svc.Stop ∨ c.Cmd = svc.Shutdown) := by tauto
  constructor
  · have hn : noStop (pre ++ [Event.request c]) = true := by
      rw [noStop_append, h]
      simp [noStop, isStop, h2, h3]
    rw [Execute_noStop p _ hn, Execute_noStop p _ h, Execute_snoc p pre _ h]
    simp [loop, h1, h23, h4, h5]
  · rw [Execute_noStop p _ h]
    simp only [Execute]
    rw [loop_append _ _ post h, loop_append _ _ (Event.request c :: post) h]
    generalize (loop (enter p) pre).1 = L
    obtain ⟨L0, hL0⟩ : ∃ L0 : Loop, L0 =
        { proc := { isFirstRun := L.proc.isFirstRun, out := [] }
          tick := L.tick, calls := L.calls } := ⟨_, rfl⟩
    have e1 : L0.behind L.proc.out = L := by
      simp [Loop.behind, hL0]
    have e2 : loop L (Event.request c :: post) =
        loop (L0.behind (L.proc.out ++
          [Effect.elogError eventid ("Unexpected control request #" ++ fmtChangeRequest c)]))
          post := by
      simp [loop, h1, h23, h4, h5, Loop.behind, emit, hL0]
    have f1 := loop_behind L.proc.out L0 post
    rw [e1] at f1
    rw [e2, loop_behind, f1]
    rcases loop L0 post with ⟨r, b⟩
    cases b
    · exact ⟨r.proc.out, by simp [Loop.behind]⟩
    · exact ⟨r.proc.out ++ [Effect.report { State := svc.StopPending }],
        by simp [Loop.behind, emit]⟩

/-- C5 at an unknown request between a Pause and a Continue. -/
theorem unknown_request_only_logged_witness :
    noStop [Event.request { Cmd := svc.Pause }] = true ∧
    (Execute Proc.init ([Event.request { Cmd := svc.Pause }] ++
      [Event.request { Cmd := 99 }])).returned = none := by
  refine ⟨by decide, ?_⟩
  rw [(unknown_request_only_logged Proc.init [Event.request { Cmd := svc.Pause }]
    [Event.request { Cmd := svc.Continue }] { Cmd := 99 } (by decide) (by decide)).1]

/-- C1, the claim as stated fails: an Interrogate that carries a Stopped
status with the Stop control accepted is neither Stop nor Shutdown, yet after
it the state `Execute` reported last is Stopped while the fold of the
sequence from Running is Running, and the report carries accepted controls
in a state that is neither Running nor Paused. -/
theorem interrogate_echo_is_reported_state :
    noStop [Event.request staleInterrogate] = true ∧
    lastReport (Execute Proc.init [Event.request staleInterrogate]).proc.out =
      some { State := svc.Stopped, Accepts := svc.AcceptStop } ∧
    foldState [Event.request staleInterrogate] = svc.Running ∧
    svc.Stopped ≠ svc.Running ∧ svc.Stopped ≠ svc.Paused ∧ svc.AcceptStop ≠ 0 := by
  decide

/-- C1, amended: for events with no Stop and no Shutdown in which every
Interrogate carries the status `Execute` reported last (what the service
supervisor hands it), the status reported last after the whole sequence has
the state obtained by folding the sequence from Running and the full set of
accepted controls, and every report of the run carries accepted controls
exactly when its state is Running or Paused. -/
theorem reported_state_follows_requests (p : Proc) (evs : List Event)
    (h : noStop evs = true) (he : echoes (enter p) evs = true) :
    lastReport (Execute p evs).proc.out =
      some { State := foldState evs, Accepts := cmdsAccepted } ∧
    ∀ s ∈ reports ((Execute p evs).proc.out.drop p.out.length),
      (s.Accepts ≠ 0 ↔ (s.State = svc.Running ∨ s.State = svc.Paused)) := by
  have hl : lastReport (enter p).proc.out =
      some { State := svc.Running, Accepts := cmdsAccepted } := by
    simp [enter, emit, lastReport, reports_append, reports]
  obtain ⟨em, hem, hlem, haem⟩ :=
    loop_reports (enter p) svc.Running evs (Or.inl rfl) hl h he
  rw [Execute_noStop p evs h]
  simp only
  rw [hem]
  refine ⟨hlem, ?_⟩
  intro s hs
  have hout : (enter p).proc.out ++ em =
      p.out ++ ([Effect.report { State := svc.StartPending },
        Effect.report { State := svc.Running, Accepts := cmdsAccepted }] ++ em) := by
    simp [enter, emit]
  rw [hout, List.drop_left, reports_append] at hs
  simp only [reports, List.mem_append, List.mem_cons, List.mem_singleton,
    List.not_mem_nil, or_false] at hs
  rcases hs with (hs | hs) | hs
  · rw [hs]; simp [svc.StartPending, svc.Running, svc.Paused]
  · rw [hs]; exact acceptsOk_live _ (Or.inl rfl)
  · exact haem s hs

/-- C1, amended, at a run in which an Interrogate echoes the Paused status
reported before it. -/
theorem reported_state_follows_requests_witness :
    noStop sampleRun = true ∧ echoes (enter Proc.init) sampleRun = true ∧
    lastReport (Execute Proc.init sampleRun).proc.out =
      some { State := foldState sampleRun, Accepts := cmdsAccepted } :=
  ⟨by decide, by decide,
    (reported_state_follows_requests Proc.init sampleRun (by decide) (by decide)).1⟩

/-- C8: precondition failures mutate nothing.  When a service of the name
is registered, `installService` returns an error, leaves the registered
services and event-log sources as they were and never calls
`InstallAsEventCreate` (nor `CreateService`, when the service can be
opened).  When the service cannot be opened, `removeService`, `startService`
and `controlService` return an error, leave the registrations as they were
and make no `Delete`, `Start`, `Control` or `Query` call. -/
theorem precondition_failures_mutate_nothing (env : Env) (sys : Sys)
    (prog name desc : String) (fuel c toState : Nat) :
    (name ∈ sys.services →
      (installService env sys prog name desc).err ≠ none ∧
      (installService env sys prog name desc).sys = sys ∧
      (∀ n m, Effect.installAsEventCreate n m ∉ (installService env sys prog name desc).out) ∧
      (sys.openService env name = none →
        ∀ n x d a, Effect.createService n x d a ∉ (installService env sys prog name desc).out)) ∧
    (sys.openService env name ≠ none →
      ((removeService env sys name).err ≠ none ∧
        (removeService env sys name).sys = sys ∧
        Effect.deleteService ∉ (removeService env sys name).out ∧
        Effect.eventlogRemove name ∉ (removeService env sys name).out) ∧
      ((startService env sys name).err ≠ none ∧
        (startService env sys name).sys = sys ∧
        ∀ a, Effect.startService a ∉ (startService env sys name).out) ∧
      ∃ r, controlService fuel env sys name c toState = some r ∧
        r.err ≠ none ∧ r.sys = sys ∧
        (∀ k, Effect.control k ∉ r.out) ∧ Effect.query ∉ r.out) := by
  constructor
  · intro hreg
    have hcreate : sys.createService env name =
        Except.error "The specified service already exists." := by
      simp [Sys.createService, hreg]
    unfold installService
    cases hp : exePath env prog with
    | error e => simp
    | ok exepath =>
      cases hconn : env.connectErr with
      | some e => simp
      | none =>
        cases hopen : sys.openService env name with
        | none => simp
        | some e => simp [hcreate]
  · intro hopen
    obtain ⟨e, he⟩ : ∃ e, sys.openService env name = some e :=
      Option.ne_none_iff_exists'.mp hopen
    refine ⟨?_, ?_, ?_⟩
    · unfold removeService
      cases hconn : env.connectErr <;> simp [he]
    · unfold startService
      cases hconn : env.connectErr <;> simp [he]
    · unfold controlService
      cases hconn : env.connectErr <;> simp [he]

/-- C8 at an install over the installed service and a remove from an empty
service manager. -/
theorem precondition_failures_mutate_nothing_witness :
    svcName ∈ sysInstalled.services ∧
    (installService envOk sysInstalled "websvc.exe" svcName "Go HTTP Server").sys =
      sysInstalled ∧
    Sys.openService envOk { services := [], sources := [] } svcName ≠ none ∧
    (removeService envOk { services := [], sources := [] } svcName).sys =
      { services := [], sources := [] } :=
  ⟨by decide,
    ((precondition_failures_mutate_nothing envOk sysInstalled "websvc.exe" svcName
      "Go HTTP Server" 35 svc.Stop svc.Stopped).1 (by decide)).2.1,
    by decide,
    ((precondition_failures_mutate_nothing envOk { services := [], sources := [] }
      "websvc.exe" svcName "Go HTTP Server" 35 svc.Stop svc.Stopped).2 (by decide)).1.2.1⟩

/-- C10: for a service name that is not registered, when `installService`
gets as far as creating the service and the registration of the event-log
source then fails, it calls `Delete` on the service it created and returns
the "SetupelogSource() failed" error; the event-log sources are as before,
and when the deletion succeeds the registered services are as before too
(when it fails the created service stays registered). -/
theorem install_rolls_back (env : Env) (sys : Sys) (prog name desc exepath : String)
    (hnew : name ∉ sys.services)
    (hpath : exePath env prog = Except.ok exepath)
    (hconn : env.connectErr = none)
    (hcreate : env.createErr = none)
    (hsrc : name ∈ sys.sources ∨ env.installErr ≠ none) :
    (∃ e, (installService env sys prog name desc).err =
      some ("SetupelogSource() failed: " ++ e)) ∧
    (installService env sys prog name desc).out =
      [Effect.elogInfo eventid ("Install " ++ name ++ " service."), Effect.connect,
       Effect.openService name,
       Effect.createService name exepath desc ["is", "auto-started"],
       Effect.installAsEventCreate name
         (eventlog.Error ||| eventlog.Warning ||| eventlog.Info),
       Effect.deleteService, Effect.closeService, Effect.disconnect] ∧
    (installService env sys prog name desc).sys.sources = sys.sources ∧
    (env.deleteErr = none → (installService env sys prog name desc).sys = sys) ∧
    (env.deleteErr ≠ none →
      (installService env sys prog name desc).sys.services = name :: sys.services) := by
  have hopen : sys.openService env name =
      some "The specified service does not exist as an installed service." := by
    simp [Sys.openService, hnew]
  have hcr : sys.createService env name =
      Except.ok { sys with services := name :: sys.services } := by
    simp [Sys.createService, hnew, hcreate]
  obtain ⟨e, hinst⟩ : ∃ e,
      Sys.installAsEventCreate env { sys with services := name :: sys.services } name =
        Except.error e := by
    unfold Sys.installAsEventCreate
    by_cases hm : name ∈ sys.sources
    · exact ⟨"registry key already exists", by simp [hm]⟩
    · have hi : env.installErr ≠ none := by tauto
      obtain ⟨e, he⟩ := Option.ne_none_iff_exists'.mp hi
      exact ⟨e, by simp [hm, he]⟩
  unfold installService
  simp only [hpath, hconn, hopen, hcr, hinst]
  refine ⟨⟨e, rfl⟩, by simp, ?_, ?_, ?_⟩
  · unfold Sys.deleteService
    cases env.deleteErr <;> rfl
  · intro hd
    simp [Sys.deleteService, hd]
  · intro hd
    obtain ⟨d, hd2⟩ := Option.ne_none_iff_exists'.mp hd
    simp [Sys.deleteService, hd2]

/-- C10 at an install into an empty service manager whose event-log source
registration is refused. -/
theorem install_rolls_back_witness :
    svcName ∉ ({ services := [], sources := [] } : Sys).services ∧
    exePath envSourceFails "websvc.exe" = Except.ok "C:/svc/websvc.exe" ∧
    envSourceFails.connectErr = none ∧ envSourceFails.createErr = none ∧
    envSourceFails.installErr ≠ none ∧
    (installService envSourceFails { services := [], sources := [] } "websvc.exe" svcName
      "Go HTTP Server").sys.sources = [] :=
  ⟨by decide, rfl, rfl, rfl, by decide,
    (install_rolls_back envSourceFails { services := [], sources := [] } "websvc.exe" svcName
      "Go HTTP Server" "C:/svc/websvc.exe" (by decide) rfl rfl rfl
      (Or.inr (by decide))).2.2.1⟩

/-- C9, the claim as stated fails: in an interactive session, with two
arguments after the program name (`install extra`) `main` prints no usage and
installs the service, and with the single argument `INSTALL`, which is not
one of install, remove, start, stop, it installs the service too. -/
theorem extra_arguments_and_upper_case_install :
    ["install", "extra"].length ≠ 1 ∧
    (main lowerASCII 35 envOk { services := [], sources := [] }
      ["websvc.exe", "install", "extra"]).exit = Exit.returned ∧
    (main lowerASCII 35 envOk { services := [], sources := [] }
      ["websvc.exe", "install", "extra"]).sys =
        { services := [svcName], sources := [svcName] } ∧
    "INSTALL" ∉ ["install", "remove", "start", "stop"] ∧
    (main lowerASCII 35 envOk { services := [], sources := [] }
      ["websvc.exe", "INSTALL"]).exit = Exit.returned ∧
    (main lowerASCII 35 envOk { services := [], sources := [] }
      ["websvc.exe", "INSTALL"]).sys =
        { services := [svcName], sources := [svcName] } := by
  decide

/-- C9, amended: in an interactive session, when there is no argument after
the program name, or the first argument in lower case is not one of install,
remove, start, stop, `main` prints the usage message (with "No command
specified!!!", or naming the lower-cased first argument) on the error stream
and exits with code 2; it calls no administrative operation: besides opening
the event log (and logging a failed session query) it does nothing else, and
the registrations are untouched. -/
theorem usage_on_missing_or_unknown_command (lower : String → String) (fuel : Nat)
    (env : Env) (sys : Sys) (prog : String) (rest : List String)
    (hint : env.isIntSess = true)
    (hbad : ∀ a ∈ rest.head?, lower a ∉ ["install", "remove", "start", "stop"]) :
    (main lower fuel env sys (prog :: rest)).exit = Exit.exited 2 ∧
    (main lower fuel env sys (prog :: rest)).sys = sys ∧
    (main lower fuel env sys (prog :: rest)).proc.out =
      Effect.elogOpen svcName ::
        (match env.sessErr with
          | some _ => [Effect.elogError eventid
              "Failed to determine if we are running in an interactive session."]
          | none => []) ++
        [Effect.stderr
          ((match rest with
            | [] => "No command specified!!!"
            | a :: _ => "Invalid command " ++ lower a) ++ "\n\n" ++
          "Usage: " ++ prog ++ " <command>\n" ++
          "        where <command> is one of\n" ++
          "        install, remove, start or stop.\n")] := by
  cases rest with
  | nil =>
    cases hs : env.sessErr <;>
      simp [main, hint, hs, usage, leave, emit, Proc.init]
  | cons a tl =>
    have hb := hbad a (by simp)
    simp only [List.mem_cons, List.mem_singleton, List.not_mem_nil, or_false, not_or] at hb
    obtain ⟨h1, h2, h3, h4⟩ := hb
    cases hs : env.sessErr <;>
      simp [main, hint, hs, usage, leave, emit, Proc.init, h1, h2, h3, h4]

/-- C9, amended, at the argument `bogus`. -/
theorem usage_on_missing_or_unknown_command_witness :
    envOk.isIntSess = true ∧
    (∀ a ∈ ["bogus"].head?, lowerASCII a ∉ ["install", "remove", "start", "stop"]) ∧
    (main lowerASCII 35 envOk { services := [], sources := [] }
      ("websvc.exe" :: ["bogus"])).exit = Exit.exited 2 :=
  ⟨rfl, by decide,
    (usage_on_missing_or_unknown_command lowerASCII 35 envOk { services := [], sources := [] }
      "websvc.exe" ["bogus"] rfl (by decide)).1⟩

/-- C7, the claim as stated fails.  With a service that reports Stopped only
at the 34th query, no status reported within the 10 s after the control
equals the target (the 34th answer arrives after 10.2 s), yet the operation
returns success and not the timeout error.  With a status query that fails,
no reported status ever equals the target, and the operation returns the
query error and not the timeout error. -/
theorem late_poll_succeeds_and_failed_query_is_no_timeout :
    (∀ j ≤ 33, (statusAt envLate j).map (fun s => s.State) = some svc.StopPending) ∧
    svc.StopPending ≠ svc.Stopped ∧
    headAt envLate 33 ≤ envLate.now + 10 * time.Second ∧
    envLate.now + 10 * time.Second < headAt envLate 34 ∧
    (controlService 35 envLate sysInstalled svcName svc.Stop svc.Stopped).map
      (fun r => r.err) = some none ∧
    (controlService 35 envQueryFails sysInstalled svcName svc.Stop svc.Stopped).map
      (fun r => r.err) = some (some "could not retrieve service status: Access is denied.") := by
  decide

/-- C7, amended: for a service that can be opened, `controlService` sends the
control once and then polls (a sleep of 300 ms and a query each time), and
* when the status of the control call or of a poll equals the target, every
  status before it having been obtained, different from the target and
  followed by a deadline check that read the clock at or before the deadline
  (10 s after the control), it returns success after exactly those polls;
* when the statuses it obtains differ from the target up to a deadline check
  that reads the clock after the deadline, it returns the timeout error at
  that check, whatever the service reports later;
* when a status query fails before either, it returns the query error.
In each case nothing is done after the result is decided but closing the
handles.  When the control is sent successfully one of the three happens
after at most 34 polls, for every bound of at least 35 iterations. -/
theorem control_and_await (env : Env) (sys : Sys) (name : String) (c toState : Nat)
    (hconn : env.connectErr = none) (hopen : sys.openService env name = none) :
    (∀ n,
      (∀ j < n, ∃ s, statusAt env j = some s ∧ s.State ≠ toState ∧
        clockAt env j ≤ env.now + 10 * time.Second) →
      (∃ s, statusAt env n = some s ∧ s.State = toState) →
      ∀ fuel, n < fuel →
        controlService fuel env sys name c toState =
          some { sys := sys
                 out := [Effect.connect, Effect.openService name, Effect.control c] ++
                   polls n ++ [Effect.closeService, Effect.disconnect]
                 err := none }) ∧
    (∀ n,
      (∀ j < n, ∃ s, statusAt env j = some s ∧ s.State ≠ toState ∧
        clockAt env j ≤ env.now + 10 * time.Second) →
      (∃ s, statusAt env n = some s ∧ s.State ≠ toState) →
      env.now + 10 * time.Second < clockAt env n →
      ∀ fuel, n < fuel →
        controlService fuel env sys name c toState =
          some { sys := sys
                 out := [Effect.connect, Effect.openService name, Effect.control c] ++
                   polls n ++ [Effect.closeService, Effect.disconnect]
                 err := some ("timeout waiting for service to go to state=" ++
                   toString toState) }) ∧
    (∀ n e,
      (∀ j ≤ n, ∃ s, statusAt env j = some s ∧ s.State ≠ toState ∧
        clockAt env j ≤ env.now + 10 * time.Second) →
      env.queryResp n = Except.error e →
      ∀ fuel, n < fuel →
        controlService fuel env sys name c toState =
          some { sys := sys
                 out := [Effect.connect, Effect.openService name, Effect.control c] ++
                   polls (n + 1) ++ [Effect.closeService, Effect.disconnect]
                 err := some ("could not retrieve service status: " ++ e) }) ∧
    ((∃ s, statusAt env 0 = some s) →
      ∀ fuel, 35 ≤ fuel →
        ∃ n r, n ≤ 34 ∧ controlService fuel env sys name c toState = some r ∧
          r.sys = sys ∧
          r.out = [Effect.connect, Effect.openService name, Effect.control c] ++
            polls n ++ [Effect.closeService, Effect.disconnect] ∧
          (r.out.filter (fun x => decide (x = Effect.control c))).length = 1 ∧
          (r.err = none ∨
           r.err = some ("timeout waiting for service to go to state=" ++
             toString toState) ∨
           ∃ e, r.err = some ("could not retrieve service status: " ++ e))) ∧
    polls 2 = [Effect.sleep 300000000, Effect.query, Effect.sleep 300000000, Effect.query] ∧
    10 * time.Second = 10000000000 := by
  have hhead : headAt env 0 = env.now := rfl
  have hctl : ∀ st0, statusAt env 0 = some st0 → env.controlResp = Except.ok st0 := by
    intro st0 h0
    unfold statusAt at h0
    cases hq : env.controlResp with
    | error e => simp [hq] at h0
    | ok t => simp [hq] at h0; rw [h0]
  have run : ∀ (n f : Nat) (st0 last : svc.Status), statusAt env 0 = some st0 →
      statusAt env n = some last →
      (∀ j < n, ∃ s, statusAt env j = some s ∧ s.State ≠ toState ∧
        clockAt env j ≤ env.now + 10 * time.Second) →
      controlService (n + (f + 1)) env sys name c toState =
        match await env toState (env.now + 10 * time.Second) (f + 1) n (headAt env n) last with
        | none => none
        | some (out, r) =>
          some { sys := sys
                 out := [Effect.connect, Effect.openService name, Effect.control c] ++
                   polls n ++ out ++ [Effect.closeService, Effect.disconnect]
                 err := r } := by
    intro n f st0 last h0 hl hpass
    have hs := await_steps env toState (env.now + 10 * time.Second) (f + 1) n 0 n st0 last
      (by simp) h0 hl (fun j _ hj => hpass j hj)
    rw [hhead] at hs
    unfold controlService
    simp only [hconn, hopen, hctl st0 h0, hs]
    cases await env toState (env.now + 10 * time.Second) (f + 1) n (headAt env n) last with
    | none => rfl
    | some x => simp
  have first : ∀ n, (∀ j < n, ∃ s, statusAt env j = some s ∧ s.State ≠ toState ∧
        clockAt env j ≤ env.now + 10 * time.Second) →
      (∃ s, statusAt env n = some s) → ∃ st0, statusAt env 0 = some st0 := by
    intro n hpass hlast
    cases n with
    | zero => exact hlast
    | succ m =>
      obtain ⟨s, hs, _⟩ := hpass 0 (by omega)
      exact ⟨s, hs⟩
  have success : ∀ n,
      (∀ j < n, ∃ s, statusAt env j = some s ∧ s.State ≠ toState ∧
        clockAt env j ≤ env.now + 10 * time.Second) →
      (∃ s, statusAt env n = some s ∧ s.State = toState) →
      ∀ fuel, n < fuel →
        controlService fuel env sys name c toState =
          some { sys := sys
                 out := [Effect.connect, Effect.openService name, Effect.control c] ++
                   polls n ++ [Effect.closeService, Effect.disconnect]
                 err := none } := by
    intro n hpass hlast fuel hf
    obtain ⟨last, hl, hst⟩ := hlast
    obtain ⟨st0, h0⟩ := first n hpass ⟨last, hl⟩
    obtain ⟨f, rfl⟩ : ∃ f, fuel = n + (f + 1) := ⟨fuel - n - 1, by omega⟩
    rw [run n f st0 last h0 hl hpass]
    simp [await, hst]
  have timedOut : ∀ n,
      (∀ j < n, ∃ s, statusAt env j = some s ∧ s.State ≠ toState ∧
        clockAt env j ≤ env.now + 10 * time.Second) →
      (∃ s, statusAt env n = some s ∧ s.State ≠ toState) →
      env.now + 10 * time.Second < clockAt env n →
      ∀ fuel, n < fuel →
        controlService fuel env sys name c toState =
          some { sys := sys
                 out := [Effect.connect, Effect.openService name, Effect.control c] ++
                   polls n ++ [Effect.closeService, Effect.disconnect]
                 err := some ("timeout waiting for service to go to state=" ++
                   toString toState) } := by
    intro n hpass hlast hlate fuel hf
    obtain ⟨last, hl, hne⟩ := hlast
    obtain ⟨st0, h0⟩ := first n hpass ⟨last, hl⟩
    obtain ⟨f, rfl⟩ : ∃ f, fuel = n + (f + 1) := ⟨fuel - n - 1, by omega⟩
    rw [run n f st0 last h0 hl hpass]
    unfold clockAt at hlate
    simp [await, hne, hlate]
  have failed : ∀ n e,
      (∀ j ≤ n, ∃ s, statusAt env j = some s ∧ s.State ≠ toState ∧
        clockAt env j ≤ env.now + 10 * time.Second) →
      env.queryResp n = Except.error e →
      ∀ fuel, n < fuel →
        controlService fuel env sys name c toState =
          some { sys := sys
                 out := [Effect.connect, Effect.openService name, Effect.control c] ++
                   polls (n + 1) ++ [Effect.closeService, Effect.disconnect]
                 err := some ("could not retrieve service status: " ++ e) } := by
    intro n e hpass hq fuel hf
    obtain ⟨last, hl, hne, hclock⟩ := hpass n le_rfl
    obtain ⟨st0, h0, _⟩ := hpass 0 (Nat.zero_le n)
    obtain ⟨f, rfl⟩ : ∃ f, fuel = n + (f + 1) := ⟨fuel - n - 1, by omega⟩
    rw [run n f st0 last h0 hl (fun j hj => hpass j (Nat.le_of_lt hj))]
    have hnt : ¬ env.now + 10 * time.Second < headAt env n + env.lag n := by
      unfold clockAt at hclock
      omega
    simp [await, hne, hnt, hq, polls_succ]
  have once : ∀ n, (([Effect.connect, Effect.openService name, Effect.control c] ++
      polls n ++ [Effect.closeService, Effect.disconnect]).filter
        (fun x => decide (x = Effect.control c))).length = 1 := by
    intro n
    have hp : (polls n).filter (fun x => decide (x = Effect.control c)) = [] := by
      induction n with
      | zero => rfl
      | succ m ih => simp [polls, List.filter_cons, ih]
    simp [List.filter_append, hp, List.filter_cons]
  refine ⟨success, timedOut, failed, ?_, rfl, by decide⟩
  intro h0 fuel hf
  classical
  have h34 : ¬ (∃ s, statusAt env 34 = some s ∧ s.State ≠ toState ∧
      clockAt env 34 ≤ env.now + 10 * time.Second) := by
    rintro ⟨s, _, _, hle⟩
    have := headAt_ge env 34
    simp only [clockAt, time.Millisecond, time.Second] at this hle
    omega
  have hex : ∃ k, ¬ (∃ s, statusAt env k = some s ∧ s.State ≠ toState ∧
      clockAt env k ≤ env.now + 10 * time.Second) := ⟨34, h34⟩
  have hle : Nat.find hex ≤ 34 := Nat.find_min' hex h34
  have hpass : ∀ j < Nat.find hex, ∃ s, statusAt env j = some s ∧ s.State ≠ toState ∧
      clockAt env j ≤ env.now + 10 * time.Second := by
    intro j hj
    exact not_not.mp (Nat.find_min hex hj)
  have hstop := Nat.find_spec hex
  generalize Nat.find hex = n at hle hpass hstop
  cases hs : statusAt env n with
  | some last =>
    by_cases ht : last.State = toState
    · exact ⟨n, _, hle, success n hpass ⟨last, hs, ht⟩ fuel (by omega), rfl, rfl, once n,
        Or.inl rfl⟩
    · have hlate : env.now + 10 * time.Second < clockAt env n := by
        by_contra hcon
        exact hstop ⟨last, hs, ht, Nat.le_of_not_lt hcon⟩
      exact ⟨n, _, hle, timedOut n hpass ⟨last, hs, ht⟩ hlate fuel (by omega), rfl, rfl,
        once n, Or.inr (Or.inl rfl)⟩
  | none =>
    cases n with
    | zero =>
      obtain ⟨s, h0s⟩ := h0
      rw [h0s] at hs
      cases hs
    | succ m =>
      obtain ⟨e, he⟩ : ∃ e, env.queryResp m = Except.error e := by
        unfold statusAt at hs
        cases hq : env.queryResp m with
        | error e => exact ⟨e, rfl⟩
        | ok t => simp [hq] at hs
      exact ⟨m + 1, _, hle,
        failed m e (fun j hj => hpass j (by omega)) he fuel (by omega), rfl, rfl,
        once (m + 1), Or.inr (Or.inr ⟨e, rfl⟩)⟩

/-- C7, amended, at a service that reports Stopped at the third poll
(success after three polls) and at a service that reports Stopped only long
after the deadline (the timeout error after 34 polls). -/
theorem control_and_await_witness :
    envOk.connectErr = none ∧ sysInstalled.openService envOk svcName = none ∧
    controlService 35 envOk sysInstalled svcName svc.Stop svc.Stopped =
      some { sys := sysInstalled
             out := [Effect.connect, Effect.openService svcName, Effect.control svc.Stop] ++
               polls 3 ++ [Effect.closeService, Effect.disconnect]
             err := none } ∧
    envSlow.connectErr = none ∧ sysInstalled.openService envSlow svcName = none ∧
    controlService 35 envSlow sysInstalled svcName svc.Stop svc.Stopped =
      some { sys := sysInstalled
             out := [Effect.connect, Effect.openService svcName, Effect.control svc.Stop] ++
               polls 34 ++ [Effect.closeService, Effect.disconnect]
             err := some ("timeout waiting for service to go to state=" ++
               toString svc.Stopped) } :=
  ⟨rfl, by decide,
    (control_and_await envOk sysInstalled svcName svc.Stop svc.Stopped rfl (by decide)).1 3
      (by
        intro j hj
        interval_cases j <;> exact ⟨_, rfl, by decide, by decide⟩)
      ⟨_, rfl, by decide⟩ 35 (by decide),
    rfl, by decide,
    (control_and_await envSlow sysInstalled svcName svc.Stop svc.Stopped rfl (by decide)).2.1 34
      (by
        intro j hj
        interval_cases j <;> exact ⟨_, rfl, by decide, by decide⟩)
      ⟨_, rfl, by decide⟩ (by decide) 35 (by decide)⟩

end WebSvc
